import Mathlib

/-!
Verification of the rust-crawler repository against its specification.

The Rust sources are shallowly embedded: Rust `String`/`&str` values are
modelled as lists of UTF-8 bytes (`List Nat`, each element < 256), fallible
functions return `Except`, and the effectful search drivers are modelled as
pure functions over an explicit description of the page the renderer would
produce (renderer failures are an `Except.error` input).  All definitions are
translated from `src/rust-crawler/src/*.rs`; the few definitions that follow
the wording of the specification instead (used to compare intent with code)
carry a comment saying so.
-/

namespace Crawling

/-- Rust strings are UTF-8 byte sequences; we model them as lists of bytes. -/
abbrev RStr := List Nat

/-- Bytes of an ASCII string literal (codepoint = byte for ASCII, which is the
only kind of literal appearing in the embedded code). -/
def asciiBytes (s : String) : RStr := s.data.map Char.toNat

/-- Byte-wise ASCII lowercasing, the embedding of `str::to_lowercase` as used
in the challenge checks (all challenge phrases are ASCII). -/
def asciiLower (s : RStr) : RStr :=
  s.map fun b => if 65 ≤ b ∧ b ≤ 90 then b + 32 else b

/-- Embedding of Rust `str::contains(pattern)` on byte strings. -/
def containsSub (pat : RStr) : RStr → Bool
  | [] => pat.isEmpty
  | c :: rest => pat.isPrefixOf (c :: rest) || containsSub pat rest

/-- Embedding of Rust `str::split(pattern)` (leftmost, non-overlapping) on
byte strings, producing the list of pieces. -/
def splitOnL (pat : RStr) : RStr → List RStr
  | [] => [[]]
  | c :: rest =>
    if h : pat ≠ [] ∧ pat.isPrefixOf (c :: rest) then
      [] :: splitOnL pat ((c :: rest).drop pat.length)
    else
      match splitOnL pat rest with
      | [] => [[c]]
      | piece :: pieces => (c :: piece) :: pieces
termination_by s => s.length
decreasing_by
  · simp only [List.length_drop, List.length_cons]
    have : 1 ≤ pat.length := List.length_pos.mpr h.1
    omega
  · simp

-- ===========================================================================
-- Data model (src/rust-crawler/src/crawler.rs, src/queue.rs)
-- ===========================================================================

/-- `SearchResult` (crawler.rs): one organic result of a SERP. -/
structure SearchResult where
  title : RStr
  link : RStr
  snippet : RStr
deriving DecidableEq

/-- `FeaturedSnippet` (crawler.rs). -/
structure FeaturedSnippet where
  content : RStr
  source_url : Option RStr
  source_title : Option RStr
deriving DecidableEq

/-- `SerpData` (crawler.rs). -/
structure SerpData where
  results : List SearchResult
  people_also_ask : List RStr
  related_searches : List RStr
  featured_snippet : Option FeaturedSnippet
  total_results : Option RStr
deriving DecidableEq

/-- `CrawlJob` (queue.rs). -/
structure CrawlJob where
  id : RStr
  keyword : RStr
  engine : RStr
  selectors : Option (List (RStr × RStr))
deriving DecidableEq

-- ===========================================================================
-- Job queue (src/rust-crawler/src/queue.rs)
-- ===========================================================================

/-- The Redis list backing `crawl_queue`; the left (LPUSH) end is the list
head.  Serde serialization round-trips, so the queue is modelled as holding
the jobs themselves. -/
abbrev JobQueue := List CrawlJob

/-- `QueueManager::push_job`: LPUSH prepends at the left end. -/
def push_job (q : JobQueue) (j : CrawlJob) : JobQueue := j :: q

/-- `QueueManager::pop_job`: RPOP removes from the right end (the oldest
pushed element); returns `none` on an empty list. -/
def pop_job (q : JobQueue) : Option CrawlJob × JobQueue :=
  match q.getLast? with
  | none => (none, q)
  | some j => (some j, q.dropLast)

lemma foldl_push_job (js : List CrawlJob) (q : JobQueue) :
    js.foldl push_job q = js.reverse ++ q := by
  induction js generalizing q with
  | nil => simp
  | cons j rest ih => simp [push_job, ih]

/-- Claim C6: the job queue is FIFO — push appends and pop removes the oldest
pushed item; on an empty queue pop returns none, after push(job) a pop
returns exactly that job, and a second pop returns none. -/
theorem c6_queue_fifo :
    (pop_job [] = (none, []))
    ∧ (∀ j : CrawlJob, pop_job (push_job [] j) = (some j, []))
    ∧ (∀ j : CrawlJob, pop_job (pop_job (push_job [] j)).2 = (none, []))
    ∧ (∀ js : List CrawlJob, (pop_job (js.foldl push_job [])).1 = js.head?) := by
  refine ⟨rfl, ?_, ?_, ?_⟩
  · intro j; simp [push_job, pop_job]
  · intro j; simp [push_job, pop_job]
  · intro js
    rw [foldl_push_job]
    simp [pop_job]
    cases js <;> simp

-- ===========================================================================
-- base64 decoding (crawler.rs, `base64_decode`) and de-redirection
-- (`decode_search_url`)
-- ===========================================================================

/-- The base64 alphabet string of `base64_decode` in crawler.rs. -/
def b64AlphabetStr : RStr :=
  asciiBytes ("ABCDEFGHIJKLMNOPQRSTUVWXYZabcdefghijklmnopqrstuvwxyz0123456789+/")

/-- Index of a byte in a byte string (the `decode_map` built with
`chars().enumerate()` in `base64_decode`; returns the first index). -/
def lookupIdx : RStr → Nat → Nat → Option Nat
  | [], _, _ => none
  | a :: rest, c, i => if a = c then some i else lookupIdx rest c (i + 1)

/-- `decode_map.get(&c)` of `base64_decode`. -/
def b64Val (c : Nat) : Option Nat := lookupIdx b64AlphabetStr c 0

/-- Whether a byte belongs to the standard base64 alphabet. -/
def isB64Byte (c : Nat) : Bool := (b64Val c).isSome

/-- `input.trim_end_matches(61)` where 61 is the byte of the padding sign. -/
def trimEndEq (s : RStr) : RStr :=
  (s.reverse.dropWhile (fun b => b == 61)).reverse

/-- The character loop of `base64_decode`: `buffer` and `bits_collected` are
the u32/int state; the u32 arithmetic `(buffer << 6) | val` is the exact
Nat expression `(buf * 64 + v) % 2^32` because `val < 64`, the u8 cast is
`% 256`, and the mask `buffer &= (1 << bits) - 1` is `% 2^bits`. -/
def b64DecodeLoop : RStr → Nat → Nat → List Nat → List Nat
  | [], _, _, acc => acc
  | c :: rest, buf, bits, acc =>
    match b64Val c with
    | none => b64DecodeLoop rest buf bits acc
    | some v =>
      let buf2 := (buf * 64 + v) % 4294967296
      let bits2 := bits + 6
      if 8 ≤ bits2 then
        b64DecodeLoop rest (buf2 % 2 ^ (bits2 - 8)) (bits2 - 8)
          (acc ++ [buf2 / 2 ^ (bits2 - 8) % 256])
      else
        b64DecodeLoop rest buf2 bits2 acc

/-- `base64_decode` (crawler.rs): its signature is `Result<Vec<u8>>` but its
body only ever returns `Ok`. -/
def base64_decode (input : RStr) : Except String (List Nat) :=
  Except.ok (b64DecodeLoop (trimEndEq input) 0 0 [])

/-- UTF-8 continuation byte check. -/
def isCont (b : Nat) : Bool := 128 ≤ b && b ≤ 191

/-- UTF-8 validity of a byte sequence (RFC 3629 table), the check performed
by `String::from_utf8`. -/
def validUtf8 : RStr → Bool
  | [] => true
  | b :: rest =>
    if b ≤ 127 then validUtf8 rest
    else if 194 ≤ b && b ≤ 223 then
      match rest with
      | b2 :: rest2 => isCont b2 && validUtf8 rest2
      | [] => false
    else if b = 224 then
      match rest with
      | b2 :: b3 :: rest2 => (160 ≤ b2 && b2 ≤ 191) && isCont b3 && validUtf8 rest2
      | _ => false
    else if (225 ≤ b && b ≤ 236) || b = 238 || b = 239 then
      match rest with
      | b2 :: b3 :: rest2 => isCont b2 && isCont b3 && validUtf8 rest2
      | _ => false
    else if b = 237 then
      match rest with
      | b2 :: b3 :: rest2 => (128 ≤ b2 && b2 ≤ 159) && isCont b3 && validUtf8 rest2
      | _ => false
    else if b = 240 then
      match rest with
      | b2 :: b3 :: b4 :: rest2 =>
        (144 ≤ b2 && b2 ≤ 191) && isCont b3 && isCont b4 && validUtf8 rest2
      | _ => false
    else if 241 ≤ b && b ≤ 243 then
      match rest with
      | b2 :: b3 :: b4 :: rest2 => isCont b2 && isCont b3 && isCont b4 && validUtf8 rest2
      | _ => false
    else if b = 244 then
      match rest with
      | b2 :: b3 :: b4 :: rest2 =>
        (128 ≤ b2 && b2 ≤ 143) && isCont b3 && isCont b4 && validUtf8 rest2
      | _ => false
    else false

/-- `String::from_utf8` on a byte vector: the same bytes when they are valid
UTF-8, failure otherwise. -/
def string_from_utf8 (bs : List Nat) : Option RStr :=
  if validUtf8 bs then some bs else none

def bingMarker : RStr := asciiBytes ("bing.com/ck/a")

def googleMarker : RStr := asciiBytes ("google.com/url")

def ampU : RStr := asciiBytes ("&u=")

def ampUrlPat : RStr := asciiBytes ("&url=")

def questionUrlPat : RStr := asciiBytes ("?url=")

/-- `u_param.split(38).next().unwrap_or(u_param)` where 38 is the byte of the
ampersand separator. -/
def firstAmpPiece (s : RStr) : RStr :=
  match (splitOnL [38] s).head? with
  | some x => x
  | none => s

/-- Hex digit value, as used by percent-decoding. -/
def hexVal (c : Nat) : Option Nat :=
  if 48 ≤ c ∧ c ≤ 57 then some (c - 48)
  else if 65 ≤ c ∧ c ≤ 70 then some (c - 55)
  else if 97 ≤ c ∧ c ≤ 102 then some (c - 87)
  else none

/-- Percent-decoding of `urlencoding::decode`: `%XX` hex pairs become the
byte, malformed escapes pass through unchanged. -/
def pctDecode : RStr → RStr
  | 37 :: h1 :: h2 :: rest =>
    match hexVal h1, hexVal h2 with
    | some a, some b => (16 * a + b) :: pctDecode rest
    | _, _ => 37 :: pctDecode (h1 :: h2 :: rest)
  | c :: rest => c :: pctDecode rest
  | [] => []

/-- `urlencoding::decode`: percent-decode, failing when the result is not
valid UTF-8. -/
def urlDecode (s : RStr) : Option RStr :=
  let d := pctDecode s
  if validUtf8 d then some d else none

/-- The Bing branch of `decode_search_url`: `Some` when the branch returns a
decoded destination, `none` when control falls through to the Google check. -/
def decodeBingPart (url : RStr) : Option RStr :=
  if containsSub bingMarker url then
    match (splitOnL ampU url).get? 1 with
    | some uParam =>
      let encoded := firstAmpPiece uParam
      let base64Part :=
        if (asciiBytes ("a1")).isPrefixOf encoded then encoded.drop 2 else encoded
      match base64_decode base64Part with
      | Except.ok decoded => string_from_utf8 decoded
      | Except.error _ => none
    | none => none
  else none

/-- The Google branch of `decode_search_url` (including the pass-through of
unrecognized URLs). -/
def decodeGooglePart (url : RStr) : RStr :=
  if containsSub googleMarker url then
    match ((splitOnL ampUrlPat url).get? 1).orElse
        (fun _ => (splitOnL questionUrlPat url).get? 1) with
    | some urlParam =>
      match urlDecode (firstAmpPiece urlParam) with
      | some d => d
      | none => urlParam
    | none => url
  else url

/-- `decode_search_url` (crawler.rs). -/
def decode_search_url (url : RStr) : RStr :=
  match decodeBingPart url with
  | some r => r
  | none => decodeGooglePart url

-- ===========================================================================
-- Standard base64 encoding — modelled from the spec wording of C7 ("the
-- base64 encoding of d"), used only to construct the wrapper URL inputs.
-- ===========================================================================

/-- Character of the base64 alphabet at a sextet value. -/
def b64EncChar (v : Nat) : Nat := b64AlphabetStr.getD v 65

/-- Standard base64 encoding of a byte sequence, with padding. -/
def b64Encode : List Nat → RStr
  | b1 :: b2 :: b3 :: rest =>
    b64EncChar (b1 / 4) :: b64EncChar ((b1 % 4) * 16 + b2 / 16) ::
    b64EncChar ((b2 % 16) * 4 + b3 / 64) :: b64EncChar (b3 % 64) :: b64Encode rest
  | [b1, b2] =>
    [b64EncChar (b1 / 4), b64EncChar ((b1 % 4) * 16 + b2 / 16),
     b64EncChar ((b2 % 16) * 4), 61]
  | [b1] => [b64EncChar (b1 / 4), b64EncChar ((b1 % 4) * 16), 61, 61]
  | [] => []

/-- A constructed Bing-style wrapper URL: a fixed prefix containing the
`bing.com/ck/a` marker, the `u` query parameter, the provider prefix bytes of
the two characters a and 1, then the base64 encoding of the destination. -/
def mkBingWrapper (d : RStr) : RStr :=
  asciiBytes ("https://www.bing.com/ck/a?p=q") ++ ampU ++ asciiBytes ("a1") ++ b64Encode d

-- ===========================================================================
-- Helper lemmas about the byte-string operations
-- ===========================================================================

lemma isPrefixOf_extend {l s : RStr} (t : RStr) (h : l.isPrefixOf s = true) :
    l.isPrefixOf (s ++ t) = true := by
  induction l generalizing s with
  | nil => simp [List.isPrefixOf]
  | cons a l ih =>
    cases s with
    | nil => simp [List.isPrefixOf] at h
    | cons b s =>
      simp only [List.isPrefixOf, List.cons_append, Bool.and_eq_true, beq_iff_eq] at h ⊢
      exact ⟨h.1, ih h.2⟩

lemma containsSub_nil_pat (t : RStr) : containsSub [] t = true := by
  cases t <;> simp [containsSub, List.isPrefixOf]

lemma containsSub_append_left {pat s : RStr} (t : RStr) (h : containsSub pat s = true) :
    containsSub pat (s ++ t) = true := by
  induction s with
  | nil =>
    simp [containsSub, List.isEmpty_iff] at h
    subst h
    exact containsSub_nil_pat t
  | cons c s ih =>
    simp only [containsSub, Bool.or_eq_true] at h
    rcases h with h | h
    · have := @isPrefixOf_extend pat (c :: s) t h
      simp only [List.cons_append] at this ⊢
      simp [containsSub, this]
    · simp only [List.cons_append, containsSub, Bool.or_eq_true]
      exact Or.inr (ih h)

lemma splitOnL_of_head_notMem {p0 : Nat} {pt : RStr} {s : RStr} (hs : p0 ∉ s) :
    splitOnL (p0 :: pt) s = [s] := by
  induction s with
  | nil => simp [splitOnL]
  | cons c rest ih =>
    have hc : c ≠ p0 := fun e => hs (e ▸ List.mem_cons_self c rest)
    have hrest : p0 ∉ rest := fun e => hs (List.mem_cons_of_mem c e)
    simp only [splitOnL]
    rw [dif_neg]
    · rw [ih hrest]
    · rintro ⟨-, hp⟩
      simp only [List.isPrefixOf, Bool.and_eq_true, beq_iff_eq] at hp
      exact hc hp.1.symm

lemma splitOnL_sandwich {p0 p1 p2 : Nat} {P Q : RStr} (hP : p0 ∉ P) (hQ : p0 ∉ Q) :
    splitOnL [p0, p1, p2] (P ++ [p0, p1, p2] ++ Q) = [P, Q] := by
  induction P with
  | nil =>
    simp only [List.nil_append, List.cons_append]
    simp only [splitOnL]
    rw [dif_pos]
    · have hd : List.drop (List.length [p0, p1, p2]) (p0 :: p1 :: p2 :: Q) = Q := by simp
      rw [hd, splitOnL_of_head_notMem hQ]
    · refine ⟨by simp, ?_⟩
      simp [List.isPrefixOf]
  | cons c P ih =>
    have hc : c ≠ p0 := fun e => hP (e ▸ List.mem_cons_self c P)
    have hP2 : p0 ∉ P := fun e => hP (List.mem_cons_of_mem c e)
    simp only [List.cons_append]
    simp only [splitOnL]
    rw [dif_neg]
    · have ihx := ih hP2
      simp only [List.cons_append] at ihx
      rw [ihx]
    · rintro ⟨-, hp⟩
      simp only [List.isPrefixOf, Bool.and_eq_true, beq_iff_eq] at hp
      exact hc hp.1.symm

-- ===========================================================================
-- base64 lemmas
-- ===========================================================================

lemma isB64Byte_61 : isB64Byte 61 = false := by decide

lemma b64Val_encChar : ∀ v, v < 64 → b64Val (b64EncChar v) = some v := by decide

/-- Bytes outside the alphabet are skipped by the decode loop: decoding a
string equals decoding the string with non-alphabet bytes filtered out. -/
lemma b64DecodeLoop_filter (s : RStr) : ∀ buf bits acc,
    b64DecodeLoop s buf bits acc = b64DecodeLoop (s.filter isB64Byte) buf bits acc := by
  induction s with
  | nil => intro buf bits acc; rfl
  | cons c rest ih =>
    intro buf bits acc
    cases hb : b64Val c with
    | none =>
      have hf : isB64Byte c = false := by simp [isB64Byte, hb]
      simp only [b64DecodeLoop, hb, List.filter_cons, hf, Bool.false_eq_true, if_false]
      exact ih buf bits acc
    | some v =>
      have hf : isB64Byte c = true := by simp [isB64Byte, hb]
      simp only [b64DecodeLoop, hb, List.filter_cons, hf, if_true]
      by_cases h8 : 8 ≤ bits + 6 <;> simp only [h8, if_true, if_false, ite_true, ite_false] <;>
        apply ih

lemma filter_dropWhileEq (t : RStr) :
    (t.dropWhile (fun b => b == 61)).filter isB64Byte = t.filter isB64Byte := by
  induction t with
  | nil => simp
  | cons c rest ih =>
    by_cases hc : c = 61
    · subst hc
      rw [List.dropWhile_cons_of_pos (by simp)]
      rw [ih]
      simp [List.filter_cons, isB64Byte_61]
    · rw [List.dropWhile_cons_of_neg (by simp [hc])]

/-- The padding trim of `base64_decode` does not change the filtered bytes. -/
lemma filter_trimEndEq (s : RStr) :
    (trimEndEq s).filter isB64Byte = s.filter isB64Byte := by
  unfold trimEndEq
  rw [List.filter_reverse]
  rw [filter_dropWhileEq]
  rw [List.filter_reverse]
  rw [List.reverse_reverse]

/-- Decoding one full 4-character group recovers the three source bytes. -/
lemma loop_quad {b1 b2 b3 : Nat} (hb1 : b1 < 256) (hb2 : b2 < 256) (hb3 : b3 < 256)
    (rest : RStr) (acc : List Nat) :
    b64DecodeLoop (b64EncChar (b1 / 4) :: b64EncChar ((b1 % 4) * 16 + b2 / 16) ::
      b64EncChar ((b2 % 16) * 4 + b3 / 64) :: b64EncChar (b3 % 64) :: rest) 0 0 acc =
    b64DecodeLoop rest 0 0 (acc ++ [b1, b2, b3]) := by
  have e1 := b64Val_encChar (b1 / 4) (by omega)
  have e2 := b64Val_encChar ((b1 % 4) * 16 + b2 / 16) (by omega)
  have e3 := b64Val_encChar ((b2 % 16) * 4 + b3 / 64) (by omega)
  have e4 := b64Val_encChar (b3 % 64) (by omega)
  simp only [b64DecodeLoop, e1, e2, e3, e4]
  norm_num
  simp only [Nat.mod_one]
  congr 1
  rw [List.append_right_inj]
  simp only [List.cons.injEq, and_true]
  refine ⟨?_, ?_, ?_⟩ <;> omega

/-- Decoding a final 2-character group (one source byte, padding trimmed). -/
lemma loop_duo {b1 : Nat} (hb1 : b1 < 256) (acc : List Nat) :
    b64DecodeLoop [b64EncChar (b1 / 4), b64EncChar ((b1 % 4) * 16)] 0 0 acc =
    acc ++ [b1] := by
  have e1 := b64Val_encChar (b1 / 4) (by omega)
  have e2 := b64Val_encChar ((b1 % 4) * 16) (by omega)
  simp only [b64DecodeLoop, e1, e2]
  norm_num
  omega

/-- Decoding a final 3-character group (two source bytes, padding trimmed). -/
lemma loop_tri {b1 b2 : Nat} (hb1 : b1 < 256) (hb2 : b2 < 256) (acc : List Nat) :
    b64DecodeLoop [b64EncChar (b1 / 4), b64EncChar ((b1 % 4) * 16 + b2 / 16),
      b64EncChar ((b2 % 16) * 4)] 0 0 acc = acc ++ [b1, b2] := by
  have e1 := b64Val_encChar (b1 / 4) (by omega)
  have e2 := b64Val_encChar ((b1 % 4) * 16 + b2 / 16) (by omega)
  have e3 := b64Val_encChar ((b2 % 16) * 4) (by omega)
  simp only [b64DecodeLoop, e1, e2, e3]
  norm_num
  omega

/-- Decoding the filtered base64 encoding of a byte sequence recovers it. -/
lemma b64_roundtrip : ∀ (bs : List Nat), (∀ b ∈ bs, b < 256) →
    ∀ acc, b64DecodeLoop ((b64Encode bs).filter isB64Byte) 0 0 acc = acc ++ bs
  | [], _, acc => by simp [b64Encode, b64DecodeLoop]
  | [b1], h, acc => by
    have hb1 : b1 < 256 := h b1 (by simp)
    have f1 : isB64Byte (b64EncChar (b1 / 4)) = true := by
      simp [isB64Byte, b64Val_encChar (b1 / 4) (by omega)]
    have f2 : isB64Byte (b64EncChar ((b1 % 4) * 16)) = true := by
      simp [isB64Byte, b64Val_encChar ((b1 % 4) * 16) (by omega)]
    simp only [b64Encode, List.filter_cons, f1, f2, isB64Byte_61, if_true, if_false,
      Bool.false_eq_true, List.filter_nil]
    exact loop_duo hb1 acc
  | [b1, b2], h, acc => by
    have hb1 : b1 < 256 := h b1 (by simp)
    have hb2 : b2 < 256 := h b2 (by simp)
    have f1 : isB64Byte (b64EncChar (b1 / 4)) = true := by
      simp [isB64Byte, b64Val_encChar (b1 / 4) (by omega)]
    have f2 : isB64Byte (b64EncChar ((b1 % 4) * 16 + b2 / 16)) = true := by
      simp [isB64Byte, b64Val_encChar ((b1 % 4) * 16 + b2 / 16) (by omega)]
    have f3 : isB64Byte (b64EncChar ((b2 % 16) * 4)) = true := by
      simp [isB64Byte, b64Val_encChar ((b2 % 16) * 4) (by omega)]
    simp only [b64Encode, List.filter_cons, f1, f2, f3, isB64Byte_61, if_true, if_false,
      Bool.false_eq_true, List.filter_nil]
    exact loop_tri hb1 hb2 acc
  | b1 :: b2 :: b3 :: rest, h, acc => by
    have hb1 : b1 < 256 := h b1 (by simp)
    have hb2 : b2 < 256 := h b2 (by simp)
    have hb3 : b3 < 256 := h b3 (by simp)
    have hrest : ∀ b ∈ rest, b < 256 := fun b hb => h b (by simp [hb])
    have f1 : isB64Byte (b64EncChar (b1 / 4)) = true := by
      simp [isB64Byte, b64Val_encChar (b1 / 4) (by omega)]
    have f2 : isB64Byte (b64EncChar ((b1 % 4) * 16 + b2 / 16)) = true := by
      simp [isB64Byte, b64Val_encChar ((b1 % 4) * 16 + b2 / 16) (by omega)]
    have f3 : isB64Byte (b64EncChar ((b2 % 16) * 4 + b3 / 64)) = true := by
      simp [isB64Byte, b64Val_encChar ((b2 % 16) * 4 + b3 / 64) (by omega)]
    have f4 : isB64Byte (b64EncChar (b3 % 64)) = true := by
      simp [isB64Byte, b64Val_encChar (b3 % 64) (by omega)]
    simp only [b64Encode, List.filter_cons, f1, f2, f3, f4, if_true]
    rw [loop_quad hb1 hb2 hb3]
    rw [b64_roundtrip rest hrest (acc ++ [b1, b2, b3])]
    simp

lemma b64EncChar_ne_amp : ∀ v, v < 64 → b64EncChar v ≠ 38 := by decide

/-- The base64 encoding of a byte sequence never contains the ampersand. -/
lemma b64Encode_no_amp : ∀ (bs : List Nat), (∀ b ∈ bs, b < 256) → 38 ∉ b64Encode bs
  | [], _ => by simp [b64Encode]
  | [b1], h => by
    have hb1 : b1 < 256 := h b1 (by simp)
    have n1 := b64EncChar_ne_amp (b1 / 4) (by omega)
    have n2 := b64EncChar_ne_amp ((b1 % 4) * 16) (by omega)
    simp only [b64Encode, List.mem_cons, List.not_mem_nil, or_false]
    rintro (h1 | h1 | h1 | h1)
    · exact n1 h1.symm
    · exact n2 h1.symm
    · exact absurd h1 (by decide)
    · exact absurd h1 (by decide)
  | [b1, b2], h => by
    have hb1 : b1 < 256 := h b1 (by simp)
    have hb2 : b2 < 256 := h b2 (by simp)
    have n1 := b64EncChar_ne_amp (b1 / 4) (by omega)
    have n2 := b64EncChar_ne_amp ((b1 % 4) * 16 + b2 / 16) (by omega)
    have n3 := b64EncChar_ne_amp ((b2 % 16) * 4) (by omega)
    simp only [b64Encode, List.mem_cons, List.not_mem_nil, or_false]
    rintro (h1 | h1 | h1 | h1)
    · exact n1 h1.symm
    · exact n2 h1.symm
    · exact n3 h1.symm
    · exact absurd h1 (by decide)
  | b1 :: b2 :: b3 :: rest, h => by
    have hb1 : b1 < 256 := h b1 (by simp)
    have hb2 : b2 < 256 := h b2 (by simp)
    have hb3 : b3 < 256 := h b3 (by simp)
    have hrest : ∀ b ∈ rest, b < 256 := fun b hb => h b (by simp [hb])
    have n1 := b64EncChar_ne_amp (b1 / 4) (by omega)
    have n2 := b64EncChar_ne_amp ((b1 % 4) * 16 + b2 / 16) (by omega)
    have n3 := b64EncChar_ne_amp ((b2 % 16) * 4 + b3 / 64) (by omega)
    have n4 := b64EncChar_ne_amp (b3 % 64) (by omega)
    have ihrest := b64Encode_no_amp rest hrest
    simp only [b64Encode, List.mem_cons]
    rintro (h1 | h1 | h1 | h1 | h1)
    · exact n1 h1.symm
    · exact n2 h1.symm
    · exact n3 h1.symm
    · exact n4 h1.symm
    · exact ihrest h1

-- ===========================================================================
-- Claims C7, C8, C10
-- ===========================================================================

/-- Claim C7: for every destination string d (a valid UTF-8 byte sequence),
`decode_search_url` applied to a constructed Bing-style wrapper URL — one
containing the bing.com/ck/a marker whose u query parameter is the fixed
prefix of the characters a and 1 followed by the base64 encoding of d —
returns exactly d. -/
theorem c7_decode_bing_wrapper (d : RStr) (hb : ∀ b ∈ d, b < 256)
    (hutf : validUtf8 d = true) :
    decode_search_url (mkBingWrapper d) = d := by
  have hnoamp : 38 ∉ b64Encode d := b64Encode_no_amp d hb
  have hQ : (38 : Nat) ∉ asciiBytes ("a1") ++ b64Encode d := by
    intro hmem
    rcases List.mem_append.mp hmem with h1 | h1
    · revert h1; decide
    · exact hnoamp h1
  have hP : (38 : Nat) ∉ asciiBytes ("https://www.bing.com/ck/a?p=q") := by decide
  have hampu : ampU = [38, 117, 61] := by decide
  have hw : mkBingWrapper d
      = (asciiBytes ("https://www.bing.com/ck/a?p=q") ++ [38, 117, 61])
        ++ (asciiBytes ("a1") ++ b64Encode d) := by
    unfold mkBingWrapper
    rw [hampu]
    simp [List.append_assoc]
  have hsplit := @splitOnL_sandwich 38 117 61
    (asciiBytes ("https://www.bing.com/ck/a?p=q")) (asciiBytes ("a1") ++ b64Encode d) hP hQ
  have hsplit2 : splitOnL ampU (mkBingWrapper d)
      = [asciiBytes ("https://www.bing.com/ck/a?p=q"), asciiBytes ("a1") ++ b64Encode d] := by
    rw [hampu, hw]
    exact hsplit
  have hcontains : containsSub bingMarker (mkBingWrapper d) = true := by
    rw [hw]
    exact containsSub_append_left _ (containsSub_append_left _ (by decide))
  have hfirst : firstAmpPiece (asciiBytes ("a1") ++ b64Encode d)
      = asciiBytes ("a1") ++ b64Encode d := by
    unfold firstAmpPiece
    rw [@splitOnL_of_head_notMem 38 [] _ hQ]
    rfl
  have hpre : (asciiBytes ("a1")).isPrefixOf (asciiBytes ("a1") ++ b64Encode d) = true :=
    isPrefixOf_extend _ (by decide)
  have hdrop : (asciiBytes ("a1") ++ b64Encode d).drop 2 = b64Encode d := by
    have hlen : (asciiBytes ("a1")).length = 2 := by decide
    rw [← hlen, List.drop_left]
  have hdec : base64_decode (b64Encode d) = Except.ok d := by
    unfold base64_decode
    rw [b64DecodeLoop_filter, filter_trimEndEq]
    rw [b64_roundtrip d hb []]
    rfl
  have hbing : decodeBingPart (mkBingWrapper d) = some d := by
    unfold decodeBingPart
    simp only [hcontains, if_true, hsplit2, List.get?, hfirst, hpre, hdrop, hdec,
      string_from_utf8, hutf]
  unfold decode_search_url
  rw [hbing]

/-- Witness for C7 at a concrete destination string. -/
theorem c7_witness :
    decode_search_url (mkBingWrapper (asciiBytes ("https://example.org/page"))) =
      asciiBytes ("https://example.org/page") :=
  c7_decode_bing_wrapper _ (by decide) (by decide)

/-- Claim C8: `decode_search_url` is idempotent on URLs matching neither the
Bing wrapper format (the bing.com/ck/a marker) nor the Google wrapper format
(the google.com/url marker). -/
theorem c8_decode_idempotent (url : RStr)
    (hbing : containsSub bingMarker url = false)
    (hgoog : containsSub googleMarker url = false) :
    decode_search_url (decode_search_url url) = decode_search_url url := by
  have hid : decode_search_url url = url := by
    unfold decode_search_url decodeBingPart decodeGooglePart
    simp [hbing, hgoog]
  rw [hid, hid]

/-- Witness for C8 at a concrete non-wrapper URL. -/
theorem c8_witness :
    decode_search_url (decode_search_url (asciiBytes ("https://example.net/a"))) =
      decode_search_url (asciiBytes ("https://example.net/a")) :=
  c8_decode_idempotent _ (by decide) (by decide)

/-- Claim C10: `base64_decode` returns Ok on every input (its error branch is
unreachable), and every byte outside the 64-character standard alphabet —
including the URL-safe bytes 45 and 95 of the dash and the underscore — is
silently skipped, so decoding equals decoding the input filtered to alphabet
bytes. -/
theorem c10_base64_total (s : RStr) :
    base64_decode s = Except.ok (b64DecodeLoop (s.filter isB64Byte) 0 0 [])
    ∧ isB64Byte 45 = false ∧ isB64Byte 95 = false := by
  refine ⟨?_, by decide, by decide⟩
  unfold base64_decode
  rw [b64DecodeLoop_filter, filter_trimEndEq]

-- ===========================================================================
-- Search automation (crawler.rs: search_bing, search_google,
-- search_google_attempt, generic_crawl).  The renderer session is abstracted
-- as an `Except`-valued input: `Except.error` is a renderer
-- launch/navigation/script failure, `Except.ok` carries the page the
-- rendered DOM would yield to the extraction code.
-- ===========================================================================

/-- A candidate result block of the Bing SERP (an li.b_algo element): the
optional texts its title, link and snippet selectors yield. -/
structure BingBlock where
  title : Option RStr
  link : Option RStr
  snippet : Option RStr
deriving DecidableEq

/-- The rendered Bing page as seen by search_bing after the settle wait. -/
structure BingPage where
  html : RStr
  blocks : List BingBlock
  relatedSearches : List RStr
  totalResults : Option RStr
deriving DecidableEq

/-- The first challenge-pattern list of search_bing (crawler.rs lines
446-456); the byte list spells the phrase about proving one is not a robot
(it contains a straight apostrophe, byte 39). -/
def bingChallengePhrases : List RStr :=
  [[80, 114, 111, 118, 101, 32, 121, 111, 117, 39, 114, 101, 32, 110, 111, 116,
    32, 97, 32, 114, 111, 98, 111, 116],
   asciiBytes ("humanity"),
   asciiBytes ("unusual traffic"),
   asciiBytes ("automated requests"),
   asciiBytes ("hcaptcha"),
   asciiBytes ("recaptcha"),
   asciiBytes ("turnstile"),
   asciiBytes ("security check"),
   asciiBytes ("One last step")]

/-- The case-insensitive challenge scan of search_bing: any pattern whose
lowercasing occurs in the lowercased html. -/
def bingChallengeCheck (html : RStr) : Bool :=
  bingChallengePhrases.any fun p => containsSub (asciiLower p) (asciiLower html)

/-- The extraction loop of search_bing over li.b_algo blocks: a result is
pushed for every block with both a title and a link (no cap). -/
def bingExtractResults (blocks : List BingBlock) : List SearchResult :=
  blocks.filterMap fun b =>
    match b.title, b.link with
    | some t, some l => some ⟨t, l, b.snippet.getD []⟩
    | _, _ => none

/-- The SerpData search_bing returns on a non-challenge page.  (The second
challenge-pattern scan and the too-small check of search_bing only choose a
log line; they do not change the returned value.) -/
def bingBuildSerp (p : BingPage) : SerpData :=
  { results := bingExtractResults p.blocks,
    people_also_ask := [],
    related_searches := p.relatedSearches,
    featured_snippet := none,
    total_results := p.totalResults }

/-- search_bing (crawler.rs): renderer failures propagate; a page matching a
challenge pattern returns the challenge error before extraction; otherwise
the extracted SerpData is returned (zero results included). -/
def searchBing (env : Except String BingPage) : Except String SerpData :=
  match env with
  | Except.error e => Except.error e
  | Except.ok p =>
    if bingChallengeCheck p.html then Except.error ("Bing Challenge Detected")
    else Except.ok (bingBuildSerp p)

/-- A candidate result block matched by the DOM-extraction script of
search_google_attempt. -/
structure GoogleBlock where
  title : Option RStr
  link : Option RStr
  snippet : Option RStr
deriving DecidableEq

/-- The in-script filter of the DOM-extraction script: title and link
present, link nonempty and not a google.com/search link. -/
def googleValidBlock (b : GoogleBlock) : Option SearchResult :=
  match b.title, b.link with
  | some t, some l =>
    if l ≠ [] ∧ containsSub (asciiBytes ("google.com/search")) l = false then
      some ⟨t, l, b.snippet.getD []⟩
    else none
  | _, _ => none

/-- The rendered Google page of one attempt: the outcome of the
DOM-extraction script evaluation, the outcome of the js-context fallback
script, the rendered html and the side extractions. -/
structure GooglePage where
  domEval : Except String (List GoogleBlock)
  jsEval : Except String (List SearchResult)
  html : RStr
  paa : List RStr
  relatedSearches : List RStr
  featuredSnippet : Option FeaturedSnippet
  totalResults : Option RStr

/-- The extraction fallback chain of search_google_attempt: the DOM script
slices to the first 10; on a script error the js-context fallback slices to
10; if that errors too the result list is empty. -/
def googleAttemptResults (p : GooglePage) : List SearchResult :=
  match p.domEval with
  | Except.ok blocks => (blocks.filterMap googleValidBlock).take 10
  | Except.error _ =>
    match p.jsEval with
    | Except.ok rs => rs.take 10
    | Except.error _ => []

/-- The SerpData search_google_attempt assembles from the rendered page. -/
def googleBuildSerp (p : GooglePage) : SerpData :=
  { results := googleAttemptResults p,
    people_also_ask := p.paa,
    related_searches := p.relatedSearches,
    featured_snippet := p.featuredSnippet,
    total_results := p.totalResults }

/-- search_google_attempt (crawler.rs): renderer failures propagate as
errors; a rendered page always yields Ok — the attempt performs no challenge
classification. -/
def search_google_attempt (env : Except String GooglePage) : Except String SerpData :=
  match env with
  | Except.error e => Except.error e
  | Except.ok p => Except.ok (googleBuildSerp p)

/-- Observable trace of the search_google retry loop: the returned value,
the sleep durations (seconds) taken before retries, and the number of
attempts made. -/
structure GoogleTrace where
  result : Except String SerpData
  waits : List Nat
  attemptsUsed : Nat

/-- The message of the final error of search_google. -/
def googleFailMsg (lastError : String) : String :=
  "Google search failed after 3 attempts. Last error: " ++ lastError

/-- The `for attempt in 1..=3` loop of search_google.  `fuel` counts the
remaining loop iterations (3 at entry, in sync with `attempt`); an attempt
yielding zero results sleeps 5*attempt before the next attempt, an errored
attempt sleeps a flat 5 and replaces last_error. -/
def googleRetryAux (att : Nat → Except String SerpData) :
    Nat → Nat → String → GoogleTrace
  | 0, _, lastError => ⟨Except.error (googleFailMsg lastError), [], 0⟩
  | fuel + 1, attempt, lastError =>
    match att attempt with
    | Except.ok data =>
      if data.results.isEmpty then
        if attempt < 3 then
          let t := googleRetryAux att fuel (attempt + 1) lastError
          ⟨t.result, 5 * attempt :: t.waits, t.attemptsUsed + 1⟩
        else ⟨Except.error (googleFailMsg lastError), [], 1⟩
      else ⟨Except.ok data, [], 1⟩
    | Except.error e =>
      if attempt < 3 then
        let t := googleRetryAux att fuel (attempt + 1) e
        ⟨t.result, 5 :: t.waits, t.attemptsUsed + 1⟩
      else ⟨Except.error (googleFailMsg e), [], 1⟩

/-- The whole retry wrapper of search_google, starting at attempt 1 with the
initial last_error text. -/
def googleRetry (att : Nat → Except String SerpData) : GoogleTrace :=
  googleRetryAux att 3 1 ("No results found")

/-- search_google (crawler.rs): the value the retry wrapper returns when the
n-th renderer session behaves as `envs n`. -/
def search_google (envs : Nat → Except String GooglePage) : Except String SerpData :=
  (googleRetry fun n => search_google_attempt (envs n)).result

/-- The rendered page of a generic crawl: whether a selector string parses,
the texts of the elements a selector matches, and the texts of the title
elements. -/
structure GenericPage where
  selParses : RStr → Bool
  selectTexts : RStr → List RStr
  titleTexts : List RStr

/-- The snippet accumulator of generic_crawl: per selector-map entry a
heading line and the matched texts, or the title-dump default.  (The HashMap
iteration order is modelled by the list order.) -/
def genericSnippet (p : GenericPage) : Option (List (RStr × RStr)) → RStr
  | some selMap =>
    selMap.foldl
      (fun acc kv =>
        if p.selParses kv.2 then
          acc ++ asciiBytes ("--- ") ++ kv.1 ++ asciiBytes (" ---") ++ [10]
            ++ (p.selectTexts kv.2).foldl (fun a t => a ++ t ++ [10]) []
        else acc)
      []
  | none =>
    asciiBytes ("No selectors provided. Dumping title.") ++ [10]
      ++ (p.titleTexts.head?.getD [])

/-- generic_crawl (crawler.rs): renderer failures propagate; otherwise a
single Forum Data result holding the accumulated snippet is returned. -/
def generic_crawl (env : Except String GenericPage) (url : RStr)
    (selectors : Option (List (RStr × RStr))) : Except String SerpData :=
  match env with
  | Except.error e => Except.error e
  | Except.ok p =>
    Except.ok
      { results := [⟨asciiBytes ("Forum Data"), url, genericSnippet p selectors⟩],
        people_also_ask := [],
        related_searches := [],
        featured_snippet := none,
        total_results := some (asciiBytes ("1")) }

-- ===========================================================================
-- Content extractor: outbound-link harvesting (crawler.rs,
-- `extract_outbound_links`)
-- ===========================================================================

def httpBytes : RStr := asciiBytes ("http")

/-- extract_outbound_links (crawler.rs): the href attributes of the anchor
elements, filtered to those starting with the four bytes of http and not
containing the base domain as a substring, collected into a set (modelled as
order-preserving dedup) and capped at 50. -/
def extract_outbound_links (hrefs : List RStr) (base_domain : RStr) : List RStr :=
  ((hrefs.filter fun h =>
      httpBytes.isPrefixOf h && !containsSub base_domain h).dedup).take 50

/-- Modelled from the spec (C9 wording): an absolute http(s) link is one
carrying the full scheme marker of http or https. -/
def specAbsoluteHttpLink (s : RStr) : Bool :=
  (asciiBytes ("http://")).isPrefixOf s || (asciiBytes ("https://")).isPrefixOf s

-- ===========================================================================
-- Worker loop (worker.rs: start_worker, process_job)
-- ===========================================================================

/-- The fields of the deep-extraction output used by process_job. -/
structure WData where
  html : RStr
  main_text : RStr
  meta_description : Option RStr
  meta_author : Option RStr
  meta_date : Option RStr
deriving DecidableEq

/-- A row of the tasks table (serde serialization of the SerpData is
modelled by storing the value). -/
structure TaskRecord where
  id : RStr
  keyword : RStr
  engine : RStr
  status : RStr
  serp : SerpData
  extracted_text : RStr
  first_page_html : RStr
  meta_description : Option RStr
  meta_author : Option RStr
  meta_date : Option RStr
deriving DecidableEq

/-- The external stores process_job writes: the tasks table and the blob
store. -/
structure WorkerState where
  tasks : List TaskRecord
  blobs : List (RStr × RStr)
deriving DecidableEq

/-- The environment of one process_job run: the renderer sessions each
engine would see, the deep-extraction outcome, whether the blob write
succeeds, and the outcome of the task-row insert. -/
structure JobEnv where
  googleEnvs : Nat → Except String GooglePage
  bingEnv : Except String BingPage
  genericEnv : Except String GenericPage
  extractEnv : Except String WData
  storeOk : Bool
  dbResult : Except String Unit

/-- The engine dispatch of process_job (string comparison on the engine
field, bing being the default branch). -/
def runSearch (env : JobEnv) (job : CrawlJob) : Except String SerpData :=
  if job.engine = asciiBytes ("google") then search_google env.googleEnvs
  else if job.engine = asciiBytes ("generic") then
    generic_crawl env.genericEnv job.keyword job.selectors
  else searchBing env.bingEnv

/-- The MinIO object key, engine/jobid.html (47 is the byte of the slash). -/
def blobKey (job : CrawlJob) : RStr :=
  job.engine ++ [47] ++ job.id ++ asciiBytes (".html")

/-- The deep extraction step: attempted only when the SERP has a first
result; its error is converted to `none` by `.ok()`. -/
def firstResultData (env : JobEnv) (serp : SerpData) : Option WData :=
  match serp.results.head? with
  | some _ => env.extractEnv.toOption
  | none => none

/-- The blob-store step: writes the raw html when the deep extraction
produced a nonempty html and the store call succeeds (a store failure is
only logged). -/
def storeBlobStep (env : JobEnv) (st : WorkerState) (job : CrawlJob)
    (first : Option WData) : WorkerState :=
  match first with
  | some data =>
    if data.html ≠ [] ∧ env.storeOk then
      { st with blobs := st.blobs ++ [(blobKey job, data.html)] }
    else st
  | none => st

/-- The row inserted into the tasks table at completion. -/
def mkTaskRecord (job : CrawlJob) (serp : SerpData) (first : Option WData) :
    TaskRecord :=
  match first with
  | some data =>
    { id := job.id, keyword := job.keyword, engine := job.engine,
      status := asciiBytes ("completed"), serp := serp,
      extracted_text := data.main_text, first_page_html := data.html,
      meta_description := data.meta_description, meta_author := data.meta_author,
      meta_date := data.meta_date }
  | none =>
    { id := job.id, keyword := job.keyword, engine := job.engine,
      status := asciiBytes ("completed"), serp := serp,
      extracted_text := [], first_page_html := [],
      meta_description := none, meta_author := none, meta_date := none }

/-- process_job (worker.rs): search, then optional deep extraction, then the
blob write, then the task-row insert; a search failure returns immediately
with the state untouched. -/
def processJob (env : JobEnv) (st : WorkerState) (job : CrawlJob) :
    Except String Unit × WorkerState :=
  match runSearch env job with
  | Except.error e => (Except.error e, st)
  | Except.ok serp =>
    let first := firstResultData env serp
    let st1 := storeBlobStep env st job first
    match env.dbResult with
    | Except.ok _ =>
      (Except.ok (), { st1 with tasks := st1.tasks ++ [mkTaskRecord job serp first] })
    | Except.error e => (Except.error e, st1)

/-- One iteration of the start_worker loop when the queue is polled: the
popped job is processed and dropped whatever the outcome (the failure branch
only logs; there is no re-enqueue). -/
def workerStep (env : JobEnv) (q : JobQueue) (st : WorkerState) :
    JobQueue × WorkerState :=
  match pop_job q with
  | (none, q2) => (q2, st)
  | (some job, q2) => (q2, (processJob env st job).2)

-- ===========================================================================
-- Helper lemmas about the search and worker models
-- ===========================================================================

lemma bingExtractResults_length (blocks : List BingBlock) :
    (bingExtractResults blocks).length
      = (blocks.filter fun b => b.title.isSome && b.link.isSome).length := by
  induction blocks with
  | nil => rfl
  | cons b rest ih =>
    rcases b with ⟨tb, lb, sb⟩
    cases tb <;> cases lb <;>
      simp [bingExtractResults, List.filterMap_cons, List.filter_cons] at ih ⊢ <;>
      omega

lemma googleRetryAux_attempts_le (att : Nat → Except String SerpData) :
    ∀ fuel attempt msg, (googleRetryAux att fuel attempt msg).attemptsUsed ≤ fuel := by
  intro fuel
  induction fuel with
  | zero => intro attempt msg; simp [googleRetryAux]
  | succ n ih =>
    intro attempt msg
    simp only [googleRetryAux]
    cases att attempt with
    | ok d =>
      by_cases he : d.results.isEmpty = true
      · simp only [he, if_true]
        by_cases ha : attempt < 3
        · have := ih (attempt + 1) msg
          simp only [ha, if_true]
          omega
        · simp [ha]
      · simp [he]
    | error e =>
      by_cases ha : attempt < 3
      · have := ih (attempt + 1) e
        simp only [ha, if_true]
        omega
      · simp [ha]

lemma googleRetryAux_attempts_pos (att : Nat → Except String SerpData)
    (fuel attempt : Nat) (msg : String) (hf : fuel ≠ 0) :
    1 ≤ (googleRetryAux att fuel attempt msg).attemptsUsed := by
  cases fuel with
  | zero => exact absurd rfl hf
  | succ n =>
    simp only [googleRetryAux]
    cases att attempt with
    | ok d =>
      by_cases he : d.results.isEmpty = true
      · simp only [he, if_true]
        by_cases ha : attempt < 3 <;> simp [ha]
      · simp [he]
    | error e =>
      by_cases ha : attempt < 3 <;> simp [ha]

/-- The empty SerpData (all collections empty). -/
def emptySerp : SerpData := ⟨[], [], [], none, none⟩

lemma storeBlobStep_tasks (env : JobEnv) (st : WorkerState) (job : CrawlJob)
    (first : Option WData) : (storeBlobStep env st job first).tasks = st.tasks := by
  cases first with
  | none => rfl
  | some data =>
    simp only [storeBlobStep]
    by_cases hc : data.html ≠ [] ∧ env.storeOk = true
    · simp [hc]
    · simp [hc]

-- ===========================================================================
-- Claim C1
-- ===========================================================================

def c1Block : BingBlock := ⟨some (asciiBytes ("t")), some (asciiBytes ("http://a")), none⟩

def c1Page : BingPage := ⟨[], List.replicate 11 c1Block, [], none⟩

/-- Counterexample to claim C1 as stated: a Bing page with 11 extractable
candidate blocks yields a SerpData with 11 results — the Bing extraction
step does not truncate to 10. -/
theorem c1_counterexample :
    searchBing (Except.ok c1Page) = Except.ok (bingBuildSerp c1Page)
    ∧ ¬ ((bingBuildSerp c1Page).results.length ≤ 10) :=
  ⟨rfl, by decide⟩

/-- Claim C1 (amended): the Google extraction step caps results at 10 and
the generic crawl returns exactly one result, but the Bing extraction is not
truncated — it returns one result for every candidate block having both a
title and a link. -/
theorem c1_results_cap :
    (∀ p : GooglePage, (googleAttemptResults p).length ≤ 10)
    ∧ (∀ (p : GenericPage) (url : RStr) (sels : Option (List (RStr × RStr))),
        ∃ d : SerpData, generic_crawl (Except.ok p) url sels = Except.ok d
          ∧ d.results.length = 1)
    ∧ (∀ blocks : List BingBlock,
        (bingExtractResults blocks).length
          = (blocks.filter fun b => b.title.isSome && b.link.isSome).length) := by
  refine ⟨?_, ?_, bingExtractResults_length⟩
  · intro p
    unfold googleAttemptResults
    cases p.domEval with
    | ok blocks => exact List.length_take_le _ _
    | error e =>
      cases p.jsEval with
      | ok rs => exact List.length_take_le _ _
      | error e2 => simp
  · intro p url sels
    exact ⟨_, rfl, rfl⟩

-- ===========================================================================
-- Claim C2
-- ===========================================================================

def c2ChallengePage : BingPage := ⟨asciiBytes ("unusual traffic"), [], [], none⟩

/-- Counterexample to claim C2 as stated: on a challenge page search_bing
returns an error value, never an Ok outcome — challenge detection is raised
as an error, not returned as a distinct non-error outcome value. -/
theorem c2_counterexample :
    searchBing (Except.ok c2ChallengePage) = Except.error ("Bing Challenge Detected")
    ∧ ∀ d : SerpData, searchBing (Except.ok c2ChallengePage) ≠ Except.ok d := by
  have hch : bingChallengeCheck c2ChallengePage.html = true := by decide
  constructor
  · simp [searchBing, hch]
  · intro d
    simp [searchBing, hch]

/-- Claim C2 (amended): renderer failures propagate as errors and a
zero-result Bing page is an Ok value the caller branches on, but challenge
detection in search_bing is raised as an error, and an exhausted zero-result
Google retry loop also surfaces as an error. -/
theorem c2_outcome_values :
    (∀ e, searchBing (Except.error e) = Except.error e)
    ∧ (∀ p : BingPage, bingChallengeCheck p.html = true →
        searchBing (Except.ok p) = Except.error ("Bing Challenge Detected"))
    ∧ (∀ p : BingPage, bingChallengeCheck p.html = false →
        searchBing (Except.ok p) = Except.ok (bingBuildSerp p))
    ∧ (∀ e, search_google_attempt (Except.error e) = Except.error e)
    ∧ ((googleRetry fun _ => Except.ok emptySerp).result
        = Except.error (googleFailMsg ("No results found"))) := by
  refine ⟨fun e => rfl, ?_, ?_, fun e => rfl, rfl⟩
  · intro p h
    simp [searchBing, h]
  · intro p h
    simp [searchBing, h]

/-- Witness for C2 at a concrete challenge page and a concrete clean page. -/
theorem c2_witness :
    searchBing (Except.ok c2ChallengePage) = Except.error ("Bing Challenge Detected") :=
  c2_outcome_values.2.1 c2ChallengePage (by decide)

-- ===========================================================================
-- Claim C3
-- ===========================================================================

/-- A zero-result SerpData makes the loop retry: explicit first step of the
retry loop when attempt 1 errors. -/
lemma googleRetry_err1 (att : Nat → Except String SerpData) (e : String)
    (h : att 1 = Except.error e) :
    googleRetry att =
      ⟨(googleRetryAux att 2 2 e).result, 5 :: (googleRetryAux att 2 2 e).waits,
       (googleRetryAux att 2 2 e).attemptsUsed + 1⟩ := by
  have hstep : googleRetry att =
      (match att 1 with
       | Except.ok data =>
         if data.results.isEmpty then
           if 1 < 3 then
             let t := googleRetryAux att 2 2 ("No results found")
             ⟨t.result, 5 * 1 :: t.waits, t.attemptsUsed + 1⟩
           else ⟨Except.error (googleFailMsg ("No results found")), [], 1⟩
         else ⟨Except.ok data, [], 1⟩
       | Except.error e2 =>
         if 1 < 3 then
           let t := googleRetryAux att 2 2 e2
           ⟨t.result, 5 :: t.waits, t.attemptsUsed + 1⟩
         else ⟨Except.error (googleFailMsg e2), [], 1⟩) := rfl
  rw [hstep, h]
  simp

/-- Explicit first step of the retry loop when attempt 1 yields zero
results. -/
lemma googleRetry_empty1 (att : Nat → Except String SerpData) (d : SerpData)
    (h : att 1 = Except.ok d) (hr : d.results.isEmpty = true) :
    googleRetry att =
      ⟨(googleRetryAux att 2 2 ("No results found")).result,
       5 * 1 :: (googleRetryAux att 2 2 ("No results found")).waits,
       (googleRetryAux att 2 2 ("No results found")).attemptsUsed + 1⟩ := by
  have hstep : googleRetry att =
      (match att 1 with
       | Except.ok data =>
         if data.results.isEmpty then
           if 1 < 3 then
             let t := googleRetryAux att 2 2 ("No results found")
             ⟨t.result, 5 * 1 :: t.waits, t.attemptsUsed + 1⟩
           else ⟨Except.error (googleFailMsg ("No results found")), [], 1⟩
         else ⟨Except.ok data, [], 1⟩
       | Except.error e2 =>
         if 1 < 3 then
           let t := googleRetryAux att 2 2 e2
           ⟨t.result, 5 :: t.waits, t.attemptsUsed + 1⟩
         else ⟨Except.error (googleFailMsg e2), [], 1⟩) := rfl
  rw [hstep, h]
  simp [hr]

/-- Claim C3 (amended): search_google makes at most 3 attempts and retries
when an attempt errors or yields zero results, failing after 3 unsuccessful
attempts; the sleep before a retry is 5*attempt seconds after a zero-result
attempt but a flat 5 seconds after an errored attempt; search_bing and
generic_crawl consume only the first renderer session (a single attempt). -/
theorem c3_retry_policy :
    (∀ att, (googleRetry att).attemptsUsed ≤ 3)
    ∧ (∀ att e, att 1 = Except.error e → 2 ≤ (googleRetry att).attemptsUsed)
    ∧ (∀ att d, att 1 = Except.ok d → d.results = [] →
        2 ≤ (googleRetry att).attemptsUsed)
    ∧ (∀ e, (googleRetry fun _ => Except.error e)
        = ⟨Except.error (googleFailMsg e), [5, 5], 3⟩)
    ∧ ((googleRetry fun _ => Except.ok emptySerp)
        = ⟨Except.error (googleFailMsg ("No results found")), [5, 10], 3⟩)
    ∧ (∀ envA envB : Nat → Except String BingPage, envA 1 = envB 1 →
        searchBing (envA 1) = searchBing (envB 1))
    ∧ (∀ (envA envB : Nat → Except String GenericPage) (url : RStr)
        (sels : Option (List (RStr × RStr))), envA 1 = envB 1 →
        generic_crawl (envA 1) url sels = generic_crawl (envB 1) url sels) := by
  refine ⟨fun att => googleRetryAux_attempts_le att 3 1 _, ?_, ?_, fun e => rfl, rfl,
    ?_, ?_⟩
  · intro att e h
    rw [googleRetry_err1 att e h]
    have hpos := googleRetryAux_attempts_pos att 2 2 e (by decide)
    show 2 ≤ (googleRetryAux att 2 2 e).attemptsUsed + 1
    omega
  · intro att d h hr
    have he : d.results.isEmpty = true := by rw [hr]; rfl
    rw [googleRetry_empty1 att d h he]
    have hpos := googleRetryAux_attempts_pos att 2 2 ("No results found") (by decide)
    show 2 ≤ (googleRetryAux att 2 2 ("No results found")).attemptsUsed + 1
    omega
  · intro envA envB h
    rw [h]
  · intro envA envB url sels h
    rw [h]

/-- Witness for C3: a run whose first attempt errors makes a second
attempt. -/
theorem c3_witness :
    2 ≤ (googleRetry fun _ => Except.error ("boom")).attemptsUsed :=
  c3_retry_policy.2.1 (fun _ => Except.error ("boom")) ("boom") rfl

/-- Counterexample to claim C3 as stated: when every attempt errors, the
waits before the two retries are a flat 5 seconds each, not 5 seconds times
the attempt number. -/
theorem c3_counterexample :
    (googleRetry fun _ => Except.error ("boom")).waits = [5, 5]
    ∧ ¬ ((googleRetry fun _ => Except.error ("boom")).waits = [5 * 1, 5 * 2]) :=
  ⟨rfl, by decide⟩

-- ===========================================================================
-- Claim C4
-- ===========================================================================

/-- Claim C4 (amended): in search_bing a rendered page whose lowercased text
contains the phrase unusual traffic is classified as the challenge failure
regardless of its extractable blocks, but the Google attempt and the generic
crawl perform no challenge classification — a rendered page always yields an
Ok value there. -/
theorem c4_challenge_classification :
    (∀ p : BingPage,
        containsSub (asciiBytes ("unusual traffic")) (asciiLower p.html) = true →
        searchBing (Except.ok p) = Except.error ("Bing Challenge Detected"))
    ∧ (∀ p : GooglePage,
        search_google_attempt (Except.ok p) = Except.ok (googleBuildSerp p))
    ∧ (∀ (p : GenericPage) (url : RStr) (sels : Option (List (RStr × RStr))),
        ∃ d, generic_crawl (Except.ok p) url sels = Except.ok d) := by
  refine ⟨?_, fun p => rfl, fun p url sels => ⟨_, rfl⟩⟩
  intro p hcontains
  have hcheck : bingChallengeCheck p.html = true := by
    unfold bingChallengeCheck
    rw [List.any_eq_true]
    refine ⟨asciiBytes ("unusual traffic"), by decide, ?_⟩
    have hl : asciiLower (asciiBytes ("unusual traffic"))
        = asciiBytes ("unusual traffic") := by decide
    rw [hl]
    exact hcontains
  simp [searchBing, hcheck]

def c4BingPage : BingPage :=
  ⟨asciiBytes ("Detected unusual traffic from your network"), [], [], none⟩

/-- Witness for C4 at a concrete Bing challenge page. -/
theorem c4_witness :
    searchBing (Except.ok c4BingPage) = Except.error ("Bing Challenge Detected") :=
  c4_challenge_classification.1 c4BingPage (by decide)

def c4GoogleBlock : GoogleBlock :=
  ⟨some (asciiBytes ("t")), some (asciiBytes ("http://a")), none⟩

def c4GooglePage : GooglePage :=
  ⟨Except.ok [c4GoogleBlock], Except.error ("unused"),
   asciiBytes ("unusual traffic"), [], [], none, none⟩

/-- Counterexample to claim C4 as stated: a Google page whose rendered html
contains the phrase unusual traffic is not classified as a challenge — the
attempt returns Ok with its one extracted result. -/
theorem c4_counterexample :
    containsSub (asciiBytes ("unusual traffic")) (asciiLower c4GooglePage.html) = true
    ∧ search_google_attempt (Except.ok c4GooglePage)
        = Except.ok (googleBuildSerp c4GooglePage)
    ∧ (googleBuildSerp c4GooglePage).results.length = 1 :=
  ⟨by decide, rfl, by decide⟩

-- ===========================================================================
-- Claim C5
-- ===========================================================================

/-- Claim C5: a job whose search step fails makes process_job return the
error before any write — the tasks and blob stores are untouched — and the
worker drops the job without re-enqueueing it; moreover a task record is
appended only when process_job completes with Ok. -/
theorem c5_failed_job_no_record :
    (∀ (env : JobEnv) (st : WorkerState) (job : CrawlJob) (e : String),
        runSearch env job = Except.error e →
        processJob env st job = (Except.error e, st)
        ∧ workerStep env (push_job [] job) st = ([], st))
    ∧ (∀ (env : JobEnv) (st : WorkerState) (job : CrawlJob),
        ((processJob env st job).2.tasks = st.tasks)
        ∨ ((processJob env st job).1 = Except.ok ()
            ∧ ∃ serp, runSearch env job = Except.ok serp
              ∧ (processJob env st job).2.tasks
                  = st.tasks ++ [mkTaskRecord job serp (firstResultData env serp)])) := by
  constructor
  · intro env st job e h
    have hp : processJob env st job = (Except.error e, st) := by
      unfold processJob
      rw [h]
    refine ⟨hp, ?_⟩
    have hpop : pop_job (push_job [] job) = (some job, []) := by
      simp [push_job, pop_job]
    unfold workerStep
    rw [hpop]
    show ([], (processJob env st job).2) = ([], st)
    rw [hp]
  · intro env st job
    cases hs : runSearch env job with
    | error e =>
      left
      simp only [processJob, hs]
    | ok serp =>
      cases hdb : env.dbResult with
      | ok u =>
        right
        simp only [processJob, hs, hdb, storeBlobStep_tasks]
        exact ⟨trivial, serp, rfl, rfl⟩
      | error e =>
        left
        simp only [processJob, hs, hdb, storeBlobStep_tasks]

def c5Job : CrawlJob := ⟨asciiBytes ("job1"), asciiBytes ("kw"), asciiBytes ("bing"), none⟩

def c5EnvFail : JobEnv :=
  ⟨fun _ => Except.error ("g"), Except.error ("renderer launch failed"),
   Except.error ("g2"), Except.error ("x"), true, Except.ok ()⟩

/-- Witness for C5: a concrete Bing job whose renderer launch fails leaves
the stores untouched and is dropped from the queue. -/
theorem c5_witness :
    processJob c5EnvFail ⟨[], []⟩ c5Job = (Except.error ("renderer launch failed"), ⟨[], []⟩)
    ∧ workerStep c5EnvFail (push_job [] c5Job) ⟨[], []⟩ = ([], ⟨[], []⟩) :=
  c5_failed_job_no_record.1 c5EnvFail ⟨[], []⟩ c5Job ("renderer launch failed") rfl

-- ===========================================================================
-- Claim C9
-- ===========================================================================

/-- Claim C9 (amended): every element of the outbound-link list starts with
the four bytes of http and does not contain the page base domain as a
substring; the list has no duplicates and at most 50 elements. -/
theorem c9_outbound_links (hrefs : List RStr) (dm : RStr) :
    (extract_outbound_links hrefs dm).Nodup
    ∧ (extract_outbound_links hrefs dm).length ≤ 50
    ∧ (∀ h ∈ extract_outbound_links hrefs dm,
        httpBytes.isPrefixOf h = true ∧ containsSub dm h = false) := by
  refine ⟨?_, ?_, ?_⟩
  · exact (List.nodup_dedup _).sublist (List.take_sublist _ _)
  · exact List.length_take_le _ _
  · intro h hmem
    have h1 : h ∈ (hrefs.filter fun x => httpBytes.isPrefixOf x && !containsSub dm x).dedup :=
      List.take_subset _ _ hmem
    have h2 := List.mem_dedup.mp h1
    have h3 := (List.mem_filter.mp h2).2
    simp only [Bool.and_eq_true] at h3
    refine ⟨h3.1, ?_⟩
    have h4 := h3.2
    simp at h4
    exact h4

/-- Witness for C9 at a concrete link and base domain. -/
theorem c9_witness :
    httpBytes.isPrefixOf (asciiBytes ("http://other.org/")) = true
    ∧ containsSub (asciiBytes ("mysite.com")) (asciiBytes ("http://other.org/")) = false :=
  (c9_outbound_links [asciiBytes ("http://other.org/")] (asciiBytes ("mysite.com"))).2.2
    (asciiBytes ("http://other.org/")) (by decide)

def c9Href : RStr := asciiBytes ("httpx://tracker.example")

/-- Counterexample to claim C9 as stated: an href that merely starts with
the four bytes of http but carries no http(s) scheme marker passes the
filter and appears in the outbound-link list, though it is not an absolute
http(s) link. -/
theorem c9_counterexample :
    extract_outbound_links [c9Href] (asciiBytes ("mysite.com")) = [c9Href]
    ∧ specAbsoluteHttpLink c9Href = false :=
  ⟨by decide, by decide⟩

end Crawling
